import Mathlib

/-!
Verification of the scalar coercion subsystem of the mrhenry/graphql Go
repository (files `scalars.go` and `located.go`).

The Go package works over dynamically typed `interface{}` values.  We embed
the runtime values that the coercion functions inspect as the closed
inductive type `GoValue`; for each Go `case T:` / `case *T:` pair of a type
switch, the embedding carries a constructor for the value kind and wraps the
by-reference variant in `GoValue.vPtr`.

Machine numbers are embedded as `Int`/`Nat`; Go's IEEE-754 `float64` and
`float32` values are embedded as exact rationals.  All floating values the
coercion code actually compares against (`math.MinInt32`, `math.MaxInt32`)
are integers far below 2^53, where every floating value obtained from an
integer source is exact; rounding of a `float64` widening therefore never
changes the outcome of a bound check, so the exact-rational embedding agrees
with the Go semantics on every comparison performed by this code.  NaN and
the infinities are not representable; the string parser below accordingly
models the finite decimal forms of Go's `strconv.ParseFloat`.
-/

/-- Embedding of Go's `time.Time` as a broken-down civil time with a fixed
UTC offset in seconds.  The monotonic-clock reading and named zones of
`time.Time` play no role in the code under verification and are not
modelled. -/
structure GoTime where
  year : Nat
  month : Nat
  day : Nat
  hour : Nat
  minute : Nat
  second : Nat
  nsec : Nat
  offset : Int
deriving DecidableEq, Repr

/-- Closed embedding of the Go `interface{}` values inspected by the coercion
functions of `scalars.go`:

* `vBool` … `vString` are the value kinds enumerated by the type switches;
* `vBytes` is a `[]byte` carrying its text (the only use in the source is as
  UTF-8 timestamp text handed to `time.Time.UnmarshalText`);
* `vTime` is a `time.Time`;
* `vStringer` is any other value implementing `fmt.Stringer`, carrying the
  text its `String()` method returns;
* `vOther` is any value of a kind matched by no type switch below;
* `vPtr v` is a Go pointer to the value embedded by `v`. -/
inductive GoValue where
  | vBool (b : Bool)
  | vInt (n : Int)
  | vInt8 (n : Int)
  | vInt16 (n : Int)
  | vInt32 (n : Int)
  | vInt64 (n : Int)
  | vUint (n : Nat)
  | vUint8 (n : Nat)
  | vUint16 (n : Nat)
  | vUint32 (n : Nat)
  | vUint64 (n : Nat)
  | vFloat32 (q : ℚ)
  | vFloat64 (q : ℚ)
  | vString (s : String)
  | vBytes (s : String)
  | vTime (t : GoTime)
  | vStringer (s : String)
  | vOther
  | vPtr (v : GoValue)
deriving DecidableEq, Repr

/-- Numeric value of a decimal digit character. -/
def digitVal (c : Char) : Nat := c.toNat - 48

/-- Value of a big-endian list of decimal digit characters. -/
def digitsToNat (ds : List Char) : Nat :=
  ds.foldl (fun a c => a * 10 + digitVal c) 0

/-- Consume an optional leading sign; returns whether it was `-` and the
remaining characters. -/
def parseSign : List Char → Bool × List Char
  | '+' :: cs => (false, cs)
  | '-' :: cs => (true, cs)
  | cs => (false, cs)

/-- Final step of the `strconv.ParseFloat` model: assemble sign, mantissa and
decimal exponent, and fail (Go: `ErrRange`, so a non-nil error for the
caller) when the magnitude overflows `float64`, i.e. reaches the rounding
threshold `2^1024 - 2^970` of the largest finite double. -/
def floatFinish (neg : Bool) (mant : ℚ) (e : Int) : Option ℚ :=
  let q0 : ℚ := mant * (10 : ℚ) ^ e
  let q : ℚ := if neg then -q0 else q0
  if (2 : ℚ) ^ 1024 - (2 : ℚ) ^ 970 ≤ |q| then none else some q

/-- Model of Go's `strconv.ParseFloat(s, 0)` (as called by `scalars.go`, which
treats any non-nil error as failure): an optional sign, a decimal mantissa
with at least one digit (`123`, `123.45`, `.5`, `5.`), and an optional
decimal exponent, consuming the whole string.  The result is the exact
rational value.  Not modelled (no claim depends on them): hexadecimal
floats, `inf`/`NaN` spellings, digit-group underscores, rounding to the
nearest double, and the subnormal-underflow `ErrRange` case. -/
def parseGoFloat (s : String) : Option ℚ :=
  let cs := s.toList
  let (neg, cs1) : Bool × List Char := parseSign cs
  let ip := cs1.takeWhile (fun c => c.isDigit)
  let cs2 := cs1.drop ip.length
  let (fp, cs3) : List Char × List Char :=
    match cs2 with
    | '.' :: r => (r.takeWhile (fun c => c.isDigit), r.drop (r.takeWhile (fun c => c.isDigit)).length)
    | _ => ([], cs2)
  if ip.length + fp.length = 0 then none
  else
    let mant : ℚ := ((digitsToNat ip * 10 ^ fp.length + digitsToNat fp : Nat) : ℚ)
    match cs3 with
    | [] => floatFinish neg mant (-(fp.length : Int))
    | c :: r =>
      if c = 'e' ∨ c = 'E' then
        let (eneg, r1) : Bool × List Char := parseSign r
        let eds := r1.takeWhile (fun c => c.isDigit)
        let r2 := r1.drop eds.length
        if eds.length = 0 then none
        else if r2.isEmpty then
          let e : Int := if eneg then -(digitsToNat eds : Int) else (digitsToNat eds : Int)
          floatFinish neg mant (e - (fp.length : Int))
        else none
      else none

/-- Model of Go's `strconv.Atoi` on a 64-bit platform: an optional sign
followed by one or more decimal digits, the value fitting in `int64`; any
other input (including a range overflow, which Go reports through a non-nil
error) yields `none`. -/
def atoi (s : String) : Option Int :=
  let cs := s.toList
  let (neg, ds) : Bool × List Char := parseSign cs
  if ds.isEmpty then none
  else if ds.all (fun c => c.isDigit) then
    let v0 : Int := (digitsToNat ds : Int)
    let v : Int := if neg then -v0 else v0
    if v < -(2 ^ 63) ∨ v > 2 ^ 63 - 1 then none else some v
  else none

/-- Go's conversion of a nonnegative 64-bit quantity to `int64`
(two's-complement wrap), used for the `uint` and `uint64` cases of
`coerceInt`. -/
def int64Wrap (n : Nat) : Int :=
  let m : Nat := n % 2 ^ 64
  if m < 2 ^ 63 then (m : Int) else (m : Int) - 2 ^ 64

/-- Go's conversion of a `float64` to `int64`: truncation toward zero.  (For
magnitudes beyond `int64` the Go result is implementation-defined; every such
input is rejected by the floating bound check of `coerceInt` before the
integer is consulted, so the truncation value is immaterial there.) -/
def truncQ (q : ℚ) : Int :=
  if 0 ≤ q then ⌊q⌋ else -⌊-q⌋

/-- The two range checks ending `coerceInt` (`scalars.go` lines 127-135): the
floating intermediate `r` and the integer intermediate `i` must both lie in
`[math.MinInt32, math.MaxInt32]`; the accepted value is `int(i)`. -/
def intChecks (r : ℚ) (i : Int) : Option GoValue :=
  if r < -2147483648 ∨ r > 2147483647 then none
  else if i < -2147483648 ∨ i > 2147483647 then none
  else some (.vInt i)

/-- The type switch of `coerceInt` (`scalars.go` lines 23-125): computes the
pair `(r, i)` of the floating and integer intermediates, or `none` for the
early `return nil` branches (string parse failure and the `default` case).
Cases that never assign `r` leave it at its zero value `0`. -/
def intRI : GoValue → Option (ℚ × Int)
  | .vBool b => some (0, if b then 1 else 0)
  | .vPtr (.vBool b) => some (0, if b then 1 else 0)
  | .vInt n => some (0, n)
  | .vPtr (.vInt n) => some (0, n)
  | .vInt8 n => some (0, n)
  | .vPtr (.vInt8 n) => some (0, n)
  | .vInt16 n => some (0, n)
  | .vPtr (.vInt16 n) => some (0, n)
  | .vInt32 n => some (0, n)
  | .vPtr (.vInt32 n) => some (0, n)
  | .vInt64 n => some (0, n)
  | .vPtr (.vInt64 n) => some (0, n)
  | .vUint n => some ((n : ℚ), int64Wrap n)
  | .vPtr (.vUint n) => some ((n : ℚ), int64Wrap n)
  | .vUint8 n => some (0, (n : Int))
  | .vPtr (.vUint8 n) => some (0, (n : Int))
  | .vUint16 n => some (0, (n : Int))
  | .vPtr (.vUint16 n) => some (0, (n : Int))
  | .vUint32 n => some (0, (n : Int))
  | .vPtr (.vUint32 n) => some (0, (n : Int))
  | .vUint64 n => some ((n : ℚ), int64Wrap n)
  | .vPtr (.vUint64 n) => some ((n : ℚ), int64Wrap n)
  | .vFloat32 q => some (q, truncQ q)
  | .vPtr (.vFloat32 q) => some (q, truncQ q)
  | .vFloat64 q => some (q, truncQ q)
  | .vPtr (.vFloat64 q) => some (q, truncQ q)
  | .vString s => (parseGoFloat s).map (fun q => (q, truncQ q))
  | .vPtr (.vString s) => (parseGoFloat s).map (fun q => (q, truncQ q))
  | _ => none

/-- `coerceInt` of `scalars.go`: dispatch on the input kind, then the two
range checks. -/
def coerceInt (value : GoValue) : Option GoValue :=
  match intRI value with
  | none => none
  | some (r, i) => intChecks r i

/-- `coerceFloat` of `scalars.go` (lines 156-253): the type switch assigns the
`float64` intermediate `f` and the function returns `f`; the `float32` cases
return the input unwidened ("retain precision"); a string that fails to parse
returns `nil`; the switch has no `default` case, so an unmatched input leaves
`f` at its zero value and `0.0` is returned. -/
def coerceFloat : GoValue → Option GoValue
  | .vBool b => some (.vFloat64 (if b then 1 else 0))
  | .vPtr (.vBool b) => some (.vFloat64 (if b then 1 else 0))
  | .vInt n => some (.vFloat64 (n : ℚ))
  | .vPtr (.vInt n) => some (.vFloat64 (n : ℚ))
  | .vInt8 n => some (.vFloat64 (n : ℚ))
  | .vPtr (.vInt8 n) => some (.vFloat64 (n : ℚ))
  | .vInt16 n => some (.vFloat64 (n : ℚ))
  | .vPtr (.vInt16 n) => some (.vFloat64 (n : ℚ))
  | .vInt32 n => some (.vFloat64 (n : ℚ))
  | .vPtr (.vInt32 n) => some (.vFloat64 (n : ℚ))
  | .vInt64 n => some (.vFloat64 (n : ℚ))
  | .vPtr (.vInt64 n) => some (.vFloat64 (n : ℚ))
  | .vUint n => some (.vFloat64 (n : ℚ))
  | .vPtr (.vUint n) => some (.vFloat64 (n : ℚ))
  | .vUint8 n => some (.vFloat64 (n : ℚ))
  | .vPtr (.vUint8 n) => some (.vFloat64 (n : ℚ))
  | .vUint16 n => some (.vFloat64 (n : ℚ))
  | .vPtr (.vUint16 n) => some (.vFloat64 (n : ℚ))
  | .vUint32 n => some (.vFloat64 (n : ℚ))
  | .vPtr (.vUint32 n) => some (.vFloat64 (n : ℚ))
  | .vUint64 n => some (.vFloat64 (n : ℚ))
  | .vPtr (.vUint64 n) => some (.vFloat64 (n : ℚ))
  | .vFloat32 q => some (.vFloat32 q)
  | .vPtr (.vFloat32 q) => some (.vFloat32 q)
  | .vFloat64 q => some (.vFloat64 q)
  | .vPtr (.vFloat64 q) => some (.vFloat64 q)
  | .vString s =>
    match parseGoFloat s with
    | none => none
    | some q => some (.vFloat64 q)
  | .vPtr (.vString s) =>
    match parseGoFloat s with
    | none => none
    | some q => some (.vFloat64 q)
  | _ => some (.vFloat64 0)

/-- Decimal rendering of `n` left-padded with zeros to `width` digits. -/
def padNum (width n : Nat) : String :=
  let s := toString n
  if s.length < width then String.mk (List.replicate (width - s.length) '0') ++ s
  else s

/-- Drop trailing `'0'` characters (used for the fractional-second field of
the RFC 3339 nanosecond format). -/
def trimZeros (s : String) : String :=
  String.mk ((s.toList.reverse.dropWhile (fun c => c = '0')).reverse)

/-- RFC 3339 numeric UTC offset; a zero offset renders as `Z` (Go's `Z07:00`
format verb). -/
def formatOffset (off : Int) : String :=
  if off = 0 then "Z"
  else
    let sign := if off < 0 then "-" else "+"
    let a := off.natAbs
    sign ++ padNum 2 (a / 3600) ++ ":" ++ padNum 2 (a % 3600 / 60)

/-- Go's `time.RFC3339Nano` rendering used by `time.Time.MarshalText`:
`YYYY-MM-DDThh:mm:ss`, a fractional-second field only when the nanosecond
count is nonzero (trailing zeros trimmed), then the offset. -/
def formatRFC3339Nano (t : GoTime) : String :=
  padNum 4 t.year ++ "-" ++ padNum 2 t.month ++ "-" ++ padNum 2 t.day ++ "T" ++
    padNum 2 t.hour ++ ":" ++ padNum 2 t.minute ++ ":" ++ padNum 2 t.second ++
    (if t.nsec = 0 then "" else "." ++ trimZeros (padNum 9 t.nsec)) ++
    formatOffset t.offset

/-- Gregorian leap-year rule. -/
def isLeapYear (y : Nat) : Bool :=
  y % 4 = 0 ∧ (y % 100 ≠ 0 ∨ y % 400 = 0)

/-- Length of a month, for the day-of-month range check of Go's time parser. -/
def daysInMonth (y m : Nat) : Nat :=
  match m with
  | 1 => 31 | 2 => if isLeapYear y then 29 else 28
  | 3 => 31 | 4 => 30 | 5 => 31 | 6 => 30 | 7 => 31
  | 8 => 31 | 9 => 30 | 10 => 31 | 11 => 30 | 12 => 31
  | _ => 0

/-- Read exactly `n` decimal digits, returning their value and the remaining
characters. -/
def takeDigits : Nat → List Char → Option (Nat × List Char)
  | 0, cs => some (0, cs)
  | n + 1, c :: cs =>
    if c.isDigit then
      match takeDigits n cs with
      | some (v, rest) => some (digitVal c * 10 ^ n + v, rest)
      | none => none
    else none
  | _ + 1, [] => none

/-- Optional RFC 3339 fractional-second field: either absent, or a `.`
followed by at least one digit; the nanosecond count is taken from the first
nine digits (further digits only refine past nanosecond precision). -/
def parseFracSeconds : List Char → Option (Nat × List Char)
  | '.' :: r =>
    let ds := r.takeWhile (fun c => c.isDigit)
    let rest := r.drop ds.length
    if ds.length = 0 then none
    else
      let d9 := ds.take 9
      some (digitsToNat d9 * 10 ^ (9 - d9.length), rest)
  | cs => some (0, cs)

/-- RFC 3339 numeric offset or `Z`, consuming the rest of the input. -/
def parseOffset : List Char → Option Int
  | ['Z'] => some 0
  | c :: cs =>
    if c = '+' ∨ c = '-' then
      match takeDigits 2 cs with
      | some (hh, ':' :: r1) =>
        match takeDigits 2 r1 with
        | some (mm, []) =>
          if hh ≤ 23 ∧ mm ≤ 59 then
            some ((if c = '-' then -1 else 1) * ((hh : Int) * 3600 + (mm : Int) * 60))
          else none
        | _ => none
      | _ => none
    else none
  | [] => none

/-- Model of the RFC 3339 parsing performed by `time.Time.UnmarshalText`:
fixed-width date and time-of-day fields, an optional fractional second, an
offset, and the component range checks of Go's time parser (month 1-12, day
within the month, hour to 23, minute and second to 59). -/
def parseRFC3339 (s : String) : Option GoTime :=
  match takeDigits 4 s.toList with
  | some (year, '-' :: r1) =>
    match takeDigits 2 r1 with
    | some (month, '-' :: r2) =>
      match takeDigits 2 r2 with
      | some (day, 'T' :: r3) =>
        match takeDigits 2 r3 with
        | some (hour, ':' :: r4) =>
          match takeDigits 2 r4 with
          | some (minute, ':' :: r5) =>
            match takeDigits 2 r5 with
            | some (second, r6) =>
              match parseFracSeconds r6 with
              | some (nsec, r7) =>
                match parseOffset r7 with
                | some off =>
                  if 1 ≤ month ∧ month ≤ 12 ∧ 1 ≤ day ∧ day ≤ daysInMonth year month ∧
                      hour ≤ 23 ∧ minute ≤ 59 ∧ second ≤ 59 then
                    some ⟨year, month, day, hour, minute, second, nsec, off⟩
                  else none
                | none => none
              | none => none
            | _ => none
          | _ => none
        | _ => none
      | _ => none
    | _ => none
  | _ => none

/-- Go's `time.Time.MarshalText`: fails outside the RFC 3339 year range
(`year > 9999`; the embedding's year is a `Nat`, so the negative-year failure
cannot arise), otherwise renders the `RFC3339Nano` text. -/
def marshalTextGoTime (t : GoTime) : Option String :=
  if t.year ≤ 9999 then some (formatRFC3339Nano t) else none

/-- Default textual rendering of `time.Time` (its `String()` method).  Go
additionally prints a sub-second field, a numeric offset and a zone name;
the exact shape of this text is not load-bearing for any claim, and the
unmodelled zone name is noted here. -/
def goTimeString (t : GoTime) : String :=
  padNum 4 t.year ++ "-" ++ padNum 2 t.month ++ "-" ++ padNum 2 t.day ++ " " ++
    padNum 2 t.hour ++ ":" ++ padNum 2 t.minute ++ ":" ++ padNum 2 t.second ++
    " " ++ formatOffset t.offset

/-- The `fmt.Stringer` capability: the embedded values whose dynamic type has
a `String()` method, with the text that method returns.  In the embedding
these are `vStringer` and `vTime` (Go's `time.Time` implements `Stringer`)
and pointers to them (a pointer's method set includes the value methods). -/
def asStringer : GoValue → Option String
  | .vStringer s => some s
  | .vPtr (.vStringer s) => some s
  | .vTime t => some (goTimeString t)
  | .vPtr (.vTime t) => some (goTimeString t)
  | _ => none

/-- Go's `fmt.Sprintf("%v", value)` default rendering, as reached from
`coerceString` (i.e. only for non-string inputs without a `Stringer`
method).  Numeric and boolean kinds render exactly as Go does; for the
remaining kinds (`%v` of a rational-embedded float, a byte slice, a pointer
address, or an arbitrary unmatched value) the rendering below is a stand-in —
no claim depends on those strings, only on the fact that some text is
produced. -/
def sprintfV : GoValue → String
  | .vBool b => if b then "true" else "false"
  | .vInt n => toString n
  | .vInt8 n => toString n
  | .vInt16 n => toString n
  | .vInt32 n => toString n
  | .vInt64 n => toString n
  | .vUint n => toString n
  | .vUint8 n => toString n
  | .vUint16 n => toString n
  | .vUint32 n => toString n
  | .vUint64 n => toString n
  | .vFloat32 q => toString q
  | .vFloat64 q => toString q
  | .vString s => s
  | .vBytes s => s
  | .vTime t => goTimeString t
  | .vStringer s => s
  | .vOther => "{}"
  | .vPtr v => "&" ++ sprintfV v

/-- `coerceString` of `scalars.go` (lines 278-291): strings pass through
unchanged; any other value with a `fmt.Stringer` capability renders through
it; everything else falls back to `fmt.Sprintf("%v", value)`.  Never fails. -/
def coerceString (value : GoValue) : Option GoValue :=
  match value with
  | .vString s => some (.vString s)
  | .vPtr (.vString s) => some (.vString s)
  | v =>
    match asStringer v with
    | some s => some (.vString s)
    | none => some (.vString (sprintfV v))

/-- `coerceBool` of `scalars.go` (lines 310-347): booleans pass through; a
string is `false` exactly for `""` and `"false"`; `float64`, `float32` and
`int` coerce by a nonzero test; pointer cases dereference and recurse; every
other kind falls through to `return false`. -/
def coerceBool : GoValue → Option GoValue
  | .vBool b => some (.vBool b)
  | .vPtr (.vBool b) => some (.vBool b)
  | .vString s =>
    if s = "" ∨ s = "false" then some (.vBool false) else some (.vBool true)
  | .vPtr (.vString s) => coerceBool (.vString s)
  | .vFloat64 q =>
    if q ≠ 0 then some (.vBool true) else some (.vBool false)
  | .vPtr (.vFloat64 q) => coerceBool (.vFloat64 q)
  | .vFloat32 q =>
    if q ≠ 0 then some (.vBool true) else some (.vBool false)
  | .vPtr (.vFloat32 q) => coerceBool (.vFloat32 q)
  | .vInt n =>
    if n ≠ 0 then some (.vBool true) else some (.vBool false)
  | .vPtr (.vInt n) => coerceBool (.vInt n)
  | _ => some (.vBool false)

/-- `serializeDateTime` of `scalars.go` (lines 385-399): a `time.Time`
renders through `MarshalText` (failure yields `nil`); a `*time.Time`
dereferences and recurses; every other kind yields `nil`. -/
def serializeDateTime : GoValue → Option GoValue
  | .vTime t =>
    match marshalTextGoTime t with
    | some s => some (.vString s)
    | none => none
  | .vPtr (.vTime t) => serializeDateTime (.vTime t)
  | _ => none

/-- The `[]byte` case of `unserializeDateTime`: parse through
`time.Time.UnmarshalText`, a failure yielding `nil`. -/
def unmarshalDateTimeBytes (s : String) : Option GoValue :=
  match parseRFC3339 s with
  | some t => some (.vTime t)
  | none => none

/-- `unserializeDateTime` of `scalars.go` (lines 401-418): a byte slice
parses through `time.Time.UnmarshalText` (failure yields `nil`); a string or
`*string` converts to bytes and recurses into the byte-slice case; every
other kind yields `nil`. -/
def unserializeDateTime : GoValue → Option GoValue
  | .vBytes s => unmarshalDateTimeBytes s
  | .vString s => unmarshalDateTimeBytes s
  | .vPtr (.vString s) => unmarshalDateTimeBytes s
  | _ => none

/-- Closed embedding of the parsed literal nodes (`ast.Value` variants of the
external AST package) that the `ParseLiteral` functions dispatch on: the four
literal kinds carrying their raw source text (booleans are carried decoded,
as in the Go AST), plus the remaining variants of the interface (`EnumValue`,
`Variable`, `ListValue`, `ObjectValue`), which every `ParseLiteral` in
`scalars.go` rejects. -/
inductive AstValue where
  | intValue (value : String)
  | floatValue (value : String)
  | stringValue (value : String)
  | booleanValue (value : Bool)
  | enumValue (value : String)
  | variableValue (name : String)
  | listValue
  | objectValue
deriving DecidableEq, Repr

/-- Embedding of the `ScalarConfig` record of the scalar type definitions:
a name, a description, and the three coercion functions. -/
structure ScalarConfig where
  Name : String
  Description : String
  Serialize : GoValue → Option GoValue
  ParseValue : GoValue → Option GoValue
  ParseLiteral : AstValue → Option GoValue

namespace Scalars

/-- The `Int` scalar definition (`scalars.go` lines 139-154).  `NewScalar`
(not part of the excerpt) only packages the configuration record, so the
scalar is embedded as its `ScalarConfig`. -/
def Int : ScalarConfig where
  Name := "Int"
  Description := "The `Int` scalar type represents non-fractional signed whole numeric " ++
    "values. Int can represent values between -(2^31) and 2^31 - 1. "
  Serialize := coerceInt
  ParseValue := coerceInt
  ParseLiteral := fun valueAST =>
    match valueAST with
    | .intValue s =>
      match atoi s with
      | some intValue => some (.vInt intValue)
      | none => none
    | _ => none

/-- The `Float` scalar definition (`scalars.go` lines 256-276).  The literal
path calls `strconv.ParseFloat(s, 32)`; the rounding of the result to
`float32` precision is not modelled (floats are exact rationals here), which
no claim depends on. -/
def Float : ScalarConfig where
  Name := "Float"
  Description := "The `Float` scalar type represents signed double-precision fractional " ++
    "values as specified by " ++
    "[IEEE 754](http://en.wikipedia.org/wiki/IEEE_floating_point). "
  Serialize := coerceFloat
  ParseValue := coerceFloat
  ParseLiteral := fun valueAST =>
    match valueAST with
    | .floatValue s =>
      match parseGoFloat s with
      | some floatValue => some (.vFloat64 floatValue)
      | none => none
    | .intValue s =>
      match parseGoFloat s with
      | some floatValue => some (.vFloat64 floatValue)
      | none => none
    | _ => none

/-- The `String` scalar definition (`scalars.go` lines 294-308). -/
def String : ScalarConfig where
  Name := "String"
  Description := "The `String` scalar type represents textual data, represented as UTF-8 " ++
    "character sequences. The String type is most often used by GraphQL to " ++
    "represent free-form human-readable text."
  Serialize := coerceString
  ParseValue := coerceString
  ParseLiteral := fun valueAST =>
    match valueAST with
    | .stringValue s => some (.vString s)
    | _ => none

/-- The `Boolean` scalar definition (`scalars.go` lines 350-362). -/
def Boolean : ScalarConfig where
  Name := "Boolean"
  Description := "The `Boolean` scalar type represents `true` or `false`."
  Serialize := coerceBool
  ParseValue := coerceBool
  ParseLiteral := fun valueAST =>
    match valueAST with
    | .booleanValue b => some (.vBool b)
    | _ => none

/-- The `ID` scalar definition (`scalars.go` lines 365-383): it reuses
`coerceString` for both value-path functions, and its literal path returns
the raw text of integer and string literal nodes. -/
def ID : ScalarConfig where
  Name := "ID"
  Description := "The `ID` scalar type represents a unique identifier, often used to " ++
    "refetch an object or as key for a cache. The ID type appears in a JSON " ++
    "response as a String; however, it is not intended to be human-readable. " ++
    "When expected as an input type, any string (such as `\"4\"`) or integer " ++
    "(such as `4`) input value will be accepted as an ID."
  Serialize := coerceString
  ParseValue := coerceString
  ParseLiteral := fun valueAST =>
    match valueAST with
    | .intValue s => some (.vString s)
    | .stringValue s => some (.vString s)
    | _ => none

/-- The `DateTime` scalar definition (`scalars.go` lines 420-433): distinct
serialize and parse-value functions, and a literal path returning the raw
text of a string literal without invoking the timestamp parser. -/
def DateTime : ScalarConfig where
  Name := "DateTime"
  Description := "The `DateTime` scalar type represents a DateTime." ++
    " The DateTime is serialized as an RFC 3339 quoted string"
  Serialize := serializeDateTime
  ParseValue := unserializeDateTime
  ParseLiteral := fun valueAST =>
    match valueAST with
    | .stringValue s => some (.vString s)
    | _ => none

end Scalars

/-- Opaque embedding of the external `ast.Node` interface values handed to
`NewLocatedError`; the constructor only stores them. -/
structure Node where
  id : Nat
deriving DecidableEq, Repr

/-- Closed embedding of the dynamically typed failure value accepted by
`NewLocatedError`: a value implementing the `error` interface (carrying the
text its `Error()` method returns), a plain string, or anything else.  A Go
`string` has no method set, so the two type assertions of the source are
mutually exclusive. -/
inductive ErrValue where
  | goError (msg : String)
  | goString (s : String)
  | other
deriving DecidableEq, Repr

/-- Modelled from the spec: the structured error record of the external
`gqlerrors` package (not under `src/`), carrying a human message, the
implicated nodes, a diagnostic stack string, position data, and the optional
underlying failure. -/
structure GqlError where
  Message : String
  Nodes : List Node
  Stack : String
  Positions : List Nat
  OriginalError : Option ErrValue
deriving DecidableEq, Repr

/-- Modelled from the spec: `gqlerrors.NewError` (not under `src/`) packages
its arguments into the structured error record; the `source` argument is
always `nil` at the call site in `located.go` and is omitted. -/
def NewError (message : String) (nodes : List Node) (stack : String)
    (positions : List Nat) (origError : Option ErrValue) : GqlError :=
  ⟨message, nodes, stack, positions, origError⟩

/-- `NewLocatedError` of `located.go` (lines 10-30): the message defaults to
"An unknown error occurred." and the underlying error to absent; a value
implementing `error` contributes its message and itself; a plain string
contributes itself as message and, via `errors.New`, as a fresh underlying
error; the stack is set to the message and the positions to the empty
sequence. -/
def NewLocatedError (err : ErrValue) (nodes : List Node) : GqlError :=
  let message :=
    match err with
    | .goError m => m
    | .goString s => s
    | .other => "An unknown error occurred."
  let origError : Option ErrValue :=
    match err with
    | .goError m => some (.goError m)
    | .goString s => some (.goError s)
    | .other => none
  NewError message nodes message [] origError

/-- The input kinds matched by the type switch of `coerceInt` (every other
kind takes the `default: return nil` branch). -/
def intSupported : GoValue → Bool
  | .vBool _ | .vInt _ | .vInt8 _ | .vInt16 _ | .vInt32 _ | .vInt64 _
  | .vUint _ | .vUint8 _ | .vUint16 _ | .vUint32 _ | .vUint64 _
  | .vFloat32 _ | .vFloat64 _ | .vString _ => true
  | .vPtr (.vBool _) | .vPtr (.vInt _) | .vPtr (.vInt8 _) | .vPtr (.vInt16 _)
  | .vPtr (.vInt32 _) | .vPtr (.vInt64 _) | .vPtr (.vUint _) | .vPtr (.vUint8 _)
  | .vPtr (.vUint16 _) | .vPtr (.vUint32 _) | .vPtr (.vUint64 _)
  | .vPtr (.vFloat32 _) | .vPtr (.vFloat64 _) | .vPtr (.vString _) => true
  | _ => false

/-- The input kinds matched by the type switch of `coerceFloat` (every other
kind falls through the switch with `f` left at `0`). -/
def floatSupported : GoValue → Bool
  | .vBool _ | .vInt _ | .vInt8 _ | .vInt16 _ | .vInt32 _ | .vInt64 _
  | .vUint _ | .vUint8 _ | .vUint16 _ | .vUint32 _ | .vUint64 _
  | .vFloat32 _ | .vFloat64 _ | .vString _ => true
  | .vPtr (.vBool _) | .vPtr (.vInt _) | .vPtr (.vInt8 _) | .vPtr (.vInt16 _)
  | .vPtr (.vInt32 _) | .vPtr (.vInt64 _) | .vPtr (.vUint _) | .vPtr (.vUint8 _)
  | .vPtr (.vUint16 _) | .vPtr (.vUint32 _) | .vPtr (.vUint64 _)
  | .vPtr (.vFloat32 _) | .vPtr (.vFloat64 _) | .vPtr (.vString _) => true
  | _ => false

/-- The input kinds matched by the type switch of `coerceBool` (every other
kind falls through to `return false`). -/
def boolSupported : GoValue → Bool
  | .vBool _ | .vString _ | .vFloat64 _ | .vFloat32 _ | .vInt _ => true
  | .vPtr (.vBool _) | .vPtr (.vString _) | .vPtr (.vFloat64 _)
  | .vPtr (.vFloat32 _) | .vPtr (.vInt _) => true
  | _ => false

/-- The input kinds matched by `serializeDateTime`. -/
def dateTimeSerializeSupported : GoValue → Bool
  | .vTime _ | .vPtr (.vTime _) => true
  | _ => false

/-- The input kinds matched by `unserializeDateTime`. -/
def dateTimeParseSupported : GoValue → Bool
  | .vBytes _ | .vString _ | .vPtr (.vString _) => true
  | _ => false

/-- Whether an AST literal node is an integer literal. -/
def astIsIntValue : AstValue → Bool
  | .intValue _ => true
  | _ => false

/-- Whether an AST literal node is a string literal. -/
def astIsStringValue : AstValue → Bool
  | .stringValue _ => true
  | _ => false

lemma intChecks_some {r : ℚ} {i : Int} {y : GoValue} (h : intChecks r i = some y) :
    y = .vInt i ∧ -2147483648 ≤ i ∧ i ≤ 2147483647 := by
  unfold intChecks at h
  by_cases h1 : (r < -2147483648 ∨ r > 2147483647)
  · rw [if_pos h1] at h
    exact Option.noConfusion h
  · rw [if_neg h1] at h
    by_cases h2 : (i < -2147483648 ∨ i > 2147483647)
    · rw [if_pos h2] at h
      exact Option.noConfusion h
    · rw [if_neg h2] at h
      push_neg at h2
      exact ⟨(Option.some.inj h).symm, by omega, by omega⟩

lemma intChecks_inRange {i : Int} (h1 : -2147483648 ≤ i) (h2 : i ≤ 2147483647) :
    intChecks 0 i = some (.vInt i) := by
  have hr : ¬((0 : ℚ) < -2147483648 ∨ (0 : ℚ) > 2147483647) := by norm_num
  have hi : ¬(i < -2147483648 ∨ i > 2147483647) := by omega
  unfold intChecks
  rw [if_neg hr, if_neg hi]

lemma coerceInt_idem {x y : GoValue} (h : coerceInt x = some y) :
    coerceInt y = some y := by
  unfold coerceInt at h
  cases hr : intRI x with
  | none => rw [hr] at h; exact Option.noConfusion h
  | some p =>
    rw [hr] at h
    obtain ⟨r, i⟩ := p
    obtain ⟨hy, hlo, hhi⟩ := intChecks_some h
    subst hy
    show intChecks 0 i = some (.vInt i)
    exact intChecks_inRange hlo hhi

lemma coerceFloat_shape {x y : GoValue} (h : coerceFloat x = some y) :
    (∃ q, y = .vFloat64 q) ∨ (∃ q, y = .vFloat32 q) := by
  unfold coerceFloat at h
  split at h <;>
    first
      | exact Option.noConfusion h
      | exact Or.inl ⟨_, (Option.some.inj h).symm⟩
      | exact Or.inr ⟨_, (Option.some.inj h).symm⟩
      | (split at h <;>
          first
            | exact Option.noConfusion h
            | exact Or.inl ⟨_, (Option.some.inj h).symm⟩)

lemma coerceFloat_idem {x y : GoValue} (h : coerceFloat x = some y) :
    coerceFloat y = some y := by
  rcases coerceFloat_shape h with ⟨q, rfl⟩ | ⟨q, rfl⟩ <;> rfl

lemma coerceBool_shape (x : GoValue) : ∃ b, coerceBool x = some (.vBool b) := by
  cases x with
  | vString s =>
    unfold coerceBool
    split <;> exact ⟨_, rfl⟩
  | vFloat64 q =>
    unfold coerceBool
    split <;> exact ⟨_, rfl⟩
  | vFloat32 q =>
    unfold coerceBool
    split <;> exact ⟨_, rfl⟩
  | vInt n =>
    unfold coerceBool
    split <;> exact ⟨_, rfl⟩
  | vPtr v =>
    cases v with
    | vString s =>
      show ∃ b, coerceBool (.vString s) = some (.vBool b)
      unfold coerceBool
      split <;> exact ⟨_, rfl⟩
    | vFloat64 q =>
      show ∃ b, coerceBool (.vFloat64 q) = some (.vBool b)
      unfold coerceBool
      split <;> exact ⟨_, rfl⟩
    | vFloat32 q =>
      show ∃ b, coerceBool (.vFloat32 q) = some (.vBool b)
      unfold coerceBool
      split <;> exact ⟨_, rfl⟩
    | vInt n =>
      show ∃ b, coerceBool (.vInt n) = some (.vBool b)
      unfold coerceBool
      split <;> exact ⟨_, rfl⟩
    | _ => exact ⟨_, rfl⟩
  | _ => exact ⟨_, rfl⟩

lemma coerceBool_idem {x y : GoValue} (h : coerceBool x = some y) :
    coerceBool y = some y := by
  obtain ⟨b, hb⟩ := coerceBool_shape x
  rw [hb] at h
  rw [← Option.some.inj h]
  rfl

lemma coerceString_shape (x : GoValue) : ∃ s, coerceString x = some (.vString s) := by
  cases x with
  | vPtr v => cases v <;> exact ⟨_, rfl⟩
  | _ => exact ⟨_, rfl⟩

lemma coerceString_idem {x y : GoValue} (h : coerceString x = some y) :
    coerceString y = some y := by
  obtain ⟨s, hs⟩ := coerceString_shape x
  rw [hs] at h
  rw [← Option.some.inj h]
  rfl

/-- Claim C1: for every integer x in [-2^31, 2^31-1] given as input,
`Int.ParseValue(x) == x` and `Int.Serialize(x) == x`; for every integer x
outside that range, supplied either as an integer or as a floating value,
`Int.ParseValue(x)` is "no value"; and acceptance requires both the 64-bit
floating intermediate bound check and the 64-bit integer bound check to
pass. -/
theorem c1_int_value_coercion_bounds :
    (∀ x : ℤ, -2147483648 ≤ x → x ≤ 2147483647 →
      Scalars.Int.ParseValue (.vInt x) = some (.vInt x) ∧
      Scalars.Int.Serialize (.vInt x) = some (.vInt x)) ∧
    (∀ x : ℤ, x < -2147483648 ∨ x > 2147483647 →
      Scalars.Int.ParseValue (.vInt x) = none ∧
      Scalars.Int.ParseValue (.vFloat64 (x : ℚ)) = none) ∧
    (∀ (r : ℚ) (i : ℤ), intChecks r i ≠ none ↔
      ((-2147483648 ≤ r ∧ r ≤ 2147483647) ∧ (-2147483648 ≤ i ∧ i ≤ 2147483647))) := by
  refine ⟨fun x h1 h2 => ?_, fun x h => ?_, fun r i => ?_⟩
  · have hv : coerceInt (.vInt x) = some (.vInt x) := by
      show intChecks 0 x = some (.vInt x)
      exact intChecks_inRange h1 h2
    exact ⟨hv, hv⟩
  · constructor
    · show intChecks 0 x = none
      have hr : ¬((0 : ℚ) < -2147483648 ∨ (0 : ℚ) > 2147483647) := by norm_num
      unfold intChecks
      rw [if_neg hr, if_pos h]
    · show intChecks (x : ℚ) (truncQ (x : ℚ)) = none
      have hr : ((x : ℚ) < -2147483648 ∨ (x : ℚ) > 2147483647) := by
        rcases h with h | h
        · left; exact_mod_cast h
        · right; exact_mod_cast h
      unfold intChecks
      rw [if_pos hr]
  · unfold intChecks
    by_cases hr : (r < -2147483648 ∨ r > 2147483647)
    · rw [if_pos hr]
      simp only [ne_eq, not_true_eq_false, false_iff, not_and]
      intro hrr
      rcases hr with h | h
      · exact absurd h (by linarith [hrr.1])
      · exact absurd h (by linarith [hrr.2])
    · rw [if_neg hr]
      push_neg at hr
      by_cases hi : (i < -2147483648 ∨ i > 2147483647)
      · rw [if_pos hi]
        simp only [ne_eq, not_true_eq_false, false_iff, not_and]
        intro _
        omega
      · rw [if_neg hi]
        push_neg at hi
        simp only [ne_eq, reduceCtorEq, not_false_eq_true, true_iff]
        exact ⟨⟨hr.1, hr.2⟩, by omega, by omega⟩

/-- Witness for C1: the bound theorem applied at the largest 32-bit value and
at the first value beyond it. -/
theorem c1_int_value_coercion_bounds_witness :
    Scalars.Int.ParseValue (.vInt 2147483647) = some (.vInt 2147483647) ∧
    Scalars.Int.ParseValue (.vInt 2147483648) = none ∧
    Scalars.Int.ParseValue (.vFloat64 ((2147483648 : ℤ) : ℚ)) = none :=
  ⟨(c1_int_value_coercion_bounds.1 2147483647 (by norm_num) (by norm_num)).1,
   (c1_int_value_coercion_bounds.2.1 2147483648 (by norm_num)).1,
   (c1_int_value_coercion_bounds.2.1 2147483648 (by norm_num)).2⟩

/-- Claim C4: `Int.ParseLiteral` accepts only integer-literal nodes,
re-parses the node's text as an integer, and returns the parsed integer
without the 32-bit bound check (a literal outside [-2^31, 2^31-1] that
parses successfully is returned as-is); any parse error or other node kind
yields "no value". -/
theorem c4_int_parse_literal :
    (∀ s, Scalars.Int.ParseLiteral (.intValue s) = (atoi s).map GoValue.vInt) ∧
    (∀ n, astIsIntValue n = false → Scalars.Int.ParseLiteral n = none) ∧
    Scalars.Int.ParseLiteral (.intValue "3000000000") = some (.vInt 3000000000) ∧
    ((3000000000 : ℤ) > 2147483647 ∧
      Scalars.Int.ParseValue (.vInt 3000000000) = none) := by
  refine ⟨fun s => ?_, fun n h => ?_, by decide, by norm_num, by decide⟩
  · show (match atoi s with
      | some intValue => some (.vInt intValue)
      | none => none) = (atoi s).map GoValue.vInt
    cases atoi s <;> rfl
  · cases n <;> first | rfl | exact absurd h (by simp [astIsIntValue])

/-- Witness for C4: a non-integer literal node is rejected. -/
theorem c4_int_parse_literal_witness :
    Scalars.Int.ParseLiteral (.stringValue "7") = none :=
  c4_int_parse_literal.2.1 (.stringValue "7") (by decide)

/-- Claim C5: `DateTime.ParseLiteral` accepts only string-literal nodes and
returns their raw text unchanged without invoking the timestamp parser (in
particular `"not-a-real-timestamp"` is returned verbatim, though the
timestamp parser rejects it); every other node kind yields "no value". -/
theorem c5_datetime_parse_literal_raw :
    (∀ s, Scalars.DateTime.ParseLiteral (.stringValue s) = some (.vString s)) ∧
    (∀ n, astIsStringValue n = false → Scalars.DateTime.ParseLiteral n = none) ∧
    Scalars.DateTime.ParseLiteral (.stringValue "not-a-real-timestamp") =
      some (.vString "not-a-real-timestamp") ∧
    Scalars.DateTime.ParseValue (.vString "not-a-real-timestamp") = none := by
  refine ⟨fun s => rfl, fun n h => ?_, rfl, by decide⟩
  cases n <;> first | rfl | exact absurd h (by simp [astIsStringValue])

/-- Witness for C5: a boolean literal node is rejected. -/
theorem c5_datetime_parse_literal_raw_witness :
    Scalars.DateTime.ParseLiteral (.booleanValue true) = none :=
  c5_datetime_parse_literal_raw.2.1 (.booleanValue true) (by decide)

/-- Claim C6: parsing the text "2021-01-02T03:04:05Z" with
`DateTime.ParseValue` and serializing the resulting internal timestamp with
`DateTime.Serialize` yields the original text. -/
theorem c6_datetime_roundtrip :
    Scalars.DateTime.ParseValue (.vString "2021-01-02T03:04:05Z") =
      some (.vTime ⟨2021, 1, 2, 3, 4, 5, 0, 0⟩) ∧
    Scalars.DateTime.Serialize (.vTime ⟨2021, 1, 2, 3, 4, 5, 0, 0⟩) =
      some (.vString "2021-01-02T03:04:05Z") ∧
    (Scalars.DateTime.ParseValue (.vString "2021-01-02T03:04:05Z")).bind
      Scalars.DateTime.Serialize = some (.vString "2021-01-02T03:04:05Z") := by
  refine ⟨by decide, by decide, by decide⟩

/-- Claim C7: `NewLocatedError(err, nodes)` returns a structured error whose
`Nodes` equal the given node sequence and whose `Stack` equals its
`Message`; an `error` value contributes its message and itself as the
underlying failure; a plain string contributes itself as the message and a
fresh error carrying that text; anything else yields the message
"An unknown error occurred." with no underlying cause. -/
theorem c7_new_located_error (nodes : List Node) :
    (∀ m, (NewLocatedError (.goError m) nodes).Message = m ∧
      (NewLocatedError (.goError m) nodes).OriginalError = some (.goError m)) ∧
    (∀ s, (NewLocatedError (.goString s) nodes).Message = s ∧
      (NewLocatedError (.goString s) nodes).OriginalError = some (.goError s)) ∧
    ((NewLocatedError .other nodes).Message = "An unknown error occurred." ∧
      (NewLocatedError .other nodes).OriginalError = none) ∧
    (∀ e, (NewLocatedError e nodes).Nodes = nodes ∧
      (NewLocatedError e nodes).Stack = (NewLocatedError e nodes).Message) := by
  refine ⟨fun m => ⟨rfl, rfl⟩, fun s => ⟨rfl, rfl⟩, ⟨rfl, rfl⟩, fun e => ?_⟩
  cases e <;> exact ⟨rfl, rfl⟩

/-- Claim C10: for each of the Int, Float, String, Boolean and ID scalar
definitions, `Serialize` and `ParseValue` are the same function; DateTime's
two functions are distinct (they disagree on a `time.Time` input, which
`Serialize` renders and `ParseValue` rejects). -/
theorem c10_serialize_equals_parsevalue :
    Scalars.Int.Serialize = Scalars.Int.ParseValue ∧
    Scalars.Float.Serialize = Scalars.Float.ParseValue ∧
    Scalars.String.Serialize = Scalars.String.ParseValue ∧
    Scalars.Boolean.Serialize = Scalars.Boolean.ParseValue ∧
    Scalars.ID.Serialize = Scalars.ID.ParseValue ∧
    Scalars.DateTime.Serialize (.vTime ⟨2021, 1, 2, 3, 4, 5, 0, 0⟩) ≠
      Scalars.DateTime.ParseValue (.vTime ⟨2021, 1, 2, 3, 4, 5, 0, 0⟩) := by
  refine ⟨rfl, rfl, rfl, rfl, rfl, by decide⟩

/-- Counterexample to claim C2 as stated: `int64` is a numeric kind, and
`1 : int64` is nonzero, yet `Boolean.ParseValue` coerces it to `false` (the
type switch of `coerceBool` only handles `float64`, `float32` and `int`; all
other numeric widths fall through to the unrecognized-kind fallback). -/
theorem c2_bool_numeric_counterexample :
    Scalars.Boolean.ParseValue (.vInt64 1) = some (.vBool false) ∧
    Scalars.Boolean.ParseValue (.vInt64 1) ≠ some (.vBool true) := by
  refine ⟨by decide, by decide⟩

/-- Claim C2 (amended): `Boolean.ParseValue` passes booleans through
unchanged; coerces the strings `""` and `"false"` to `false` and every other
string to `true`; coerces inputs of the numeric kinds it recognizes —
`float64`, `float32` and `int` (and pointers to them) — to `true` exactly
when the value is nonzero; every other kind, including the remaining numeric
widths (`int8`, `int16`, `int32`, `int64` and the unsigned kinds), returns
`false`; and it never fails. -/
theorem c2_bool_coercion_amended :
    Scalars.Boolean.ParseValue = coerceBool ∧
    (∀ b, coerceBool (.vBool b) = some (.vBool b)) ∧
    coerceBool (.vString "") = some (.vBool false) ∧
    coerceBool (.vString "false") = some (.vBool false) ∧
    (∀ s, ¬(s = "" ∨ s = "false") → coerceBool (.vString s) = some (.vBool true)) ∧
    (∀ q : ℚ, q ≠ 0 → coerceBool (.vFloat64 q) = some (.vBool true)) ∧
    coerceBool (.vFloat64 0) = some (.vBool false) ∧
    (∀ q : ℚ, q ≠ 0 → coerceBool (.vFloat32 q) = some (.vBool true)) ∧
    coerceBool (.vFloat32 0) = some (.vBool false) ∧
    (∀ n : ℤ, n ≠ 0 → coerceBool (.vInt n) = some (.vBool true)) ∧
    coerceBool (.vInt 0) = some (.vBool false) ∧
    (∀ v, boolSupported v = false → coerceBool v = some (.vBool false)) ∧
    (∀ v, ∃ b, coerceBool v = some (.vBool b)) := by
  refine ⟨rfl, fun b => rfl, by decide, by decide, fun s h => ?_, fun q h => ?_,
    by decide, fun q h => ?_, by decide, fun n h => ?_, by decide,
    fun v h => ?_, coerceBool_shape⟩
  · unfold coerceBool
    rw [if_neg h]
  · unfold coerceBool
    rw [if_pos h]
  · unfold coerceBool
    rw [if_pos h]
  · unfold coerceBool
    rw [if_pos h]
  · cases v with
    | vPtr w =>
      cases w <;> first
        | rfl
        | exact absurd h (by simp [boolSupported])
    | _ =>
      first
        | rfl
        | exact absurd h (by simp [boolSupported])

/-- Witness for C2 (amended): the theorem applied at a nonempty string, a
nonzero rational, a nonzero integer and an unrecognized kind. -/
theorem c2_bool_coercion_amended_witness :
    coerceBool (.vString "anything-else") = some (.vBool true) ∧
    coerceBool (.vFloat64 2) = some (.vBool true) ∧
    coerceBool (.vInt 7) = some (.vBool true) ∧
    coerceBool GoValue.vOther = some (.vBool false) :=
  ⟨c2_bool_coercion_amended.2.2.2.2.1 "anything-else" (by decide),
   c2_bool_coercion_amended.2.2.2.2.2.1 2 (by norm_num),
   c2_bool_coercion_amended.2.2.2.2.2.2.2.2.2.1 7 (by norm_num),
   c2_bool_coercion_amended.2.2.2.2.2.2.2.2.2.2.2.1 GoValue.vOther (by decide)⟩

/-- Counterexample to claim C3 as stated: Float is not the only coercion
unit whose unsupported-kind result is different from "no value" — for an
input of an unrecognized kind the Boolean unit returns `false` and the
String unit returns a rendered text, neither of which is "no value". -/
theorem c3_float_only_counterexample :
    Scalars.Boolean.ParseValue GoValue.vOther = some (.vBool false) ∧
    Scalars.Boolean.ParseValue GoValue.vOther ≠ none ∧
    Scalars.String.ParseValue GoValue.vOther = some (.vString "{}") ∧
    Scalars.String.ParseValue GoValue.vOther ≠ none := by
  refine ⟨by decide, by decide, by decide, by decide⟩

/-- Claim C3 (amended): for every input of a kind unsupported by the Float
unit, `Float.ParseValue` returns `0.0` rather than "no value", while a
string input that fails to parse as a floating literal returns "no value";
among the units that reject unsupported kinds with "no value" (Int and both
DateTime directions) Float is the exception, but the Boolean and String/ID
units also never answer "no value" for unsupported kinds (they return
`false` and a rendered text respectively). -/
theorem c3_float_unsupported_amended :
    (∀ v, floatSupported v = false → Scalars.Float.ParseValue v = some (.vFloat64 0)) ∧
    (∀ s, parseGoFloat s = none → Scalars.Float.ParseValue (.vString s) = none) ∧
    (∀ v, intSupported v = false → Scalars.Int.ParseValue v = none) ∧
    (∀ v, dateTimeSerializeSupported v = false → Scalars.DateTime.Serialize v = none) ∧
    (∀ v, dateTimeParseSupported v = false → Scalars.DateTime.ParseValue v = none) ∧
    (∀ v, boolSupported v = false → Scalars.Boolean.ParseValue v = some (.vBool false)) ∧
    (∀ v, ∃ s, Scalars.String.ParseValue v = some (.vString s)) := by
  refine ⟨fun v h => ?_, fun s h => ?_, fun v h => ?_, fun v h => ?_, fun v h => ?_,
    fun v h => ?_, coerceString_shape⟩
  · cases v with
    | vPtr w =>
      cases w <;> first
        | rfl
        | exact absurd h (by simp [floatSupported])
    | _ =>
      first
        | rfl
        | exact absurd h (by simp [floatSupported])
  · show (match parseGoFloat s with
      | none => none
      | some q => some (GoValue.vFloat64 q)) = none
    rw [h]
  · cases v with
    | vPtr w =>
      cases w <;> first
        | rfl
        | exact absurd h (by simp [intSupported])
    | _ =>
      first
        | rfl
        | exact absurd h (by simp [intSupported])
  · cases v with
    | vPtr w =>
      cases w <;> first
        | rfl
        | exact absurd h (by simp [dateTimeSerializeSupported])
    | _ =>
      first
        | rfl
        | exact absurd h (by simp [dateTimeSerializeSupported])
  · cases v with
    | vPtr w =>
      cases w <;> first
        | rfl
        | exact absurd h (by simp [dateTimeParseSupported])
    | _ =>
      first
        | rfl
        | exact absurd h (by simp [dateTimeParseSupported])
  · cases v with
    | vPtr w =>
      cases w <;> first
        | rfl
        | exact absurd h (by simp [boolSupported])
    | _ =>
      first
        | rfl
        | exact absurd h (by simp [boolSupported])

/-- Witness for C3 (amended): the theorem applied at an unrecognized kind
and at an unparsable string. -/
theorem c3_float_unsupported_amended_witness :
    Scalars.Float.ParseValue GoValue.vOther = some (.vFloat64 0) ∧
    Scalars.Float.ParseValue (.vString "abc") = none ∧
    Scalars.Int.ParseValue GoValue.vOther = none ∧
    Scalars.DateTime.Serialize GoValue.vOther = none ∧
    Scalars.DateTime.ParseValue GoValue.vOther = none ∧
    Scalars.Boolean.ParseValue GoValue.vOther = some (.vBool false) :=
  ⟨c3_float_unsupported_amended.1 GoValue.vOther (by decide),
   c3_float_unsupported_amended.2.1 "abc" (by decide),
   c3_float_unsupported_amended.2.2.1 GoValue.vOther (by decide),
   c3_float_unsupported_amended.2.2.2.1 GoValue.vOther (by decide),
   c3_float_unsupported_amended.2.2.2.2.1 GoValue.vOther (by decide),
   c3_float_unsupported_amended.2.2.2.2.2.1 GoValue.vOther (by decide)⟩

/-- Claim C8: the String and ID `Serialize`/`ParseValue` functions (all four
are `coerceString`) are total and never "no value": strings pass through
unchanged, inputs with a `fmt.Stringer` capability use that rendering, and
every other input produces the default textual rendering (in particular the
input `123` yields `"123"`). -/
theorem c8_string_id_never_fail :
    Scalars.String.Serialize = coerceString ∧
    Scalars.String.ParseValue = coerceString ∧
    Scalars.ID.Serialize = coerceString ∧
    Scalars.ID.ParseValue = coerceString ∧
    (∀ v, ∃ s, coerceString v = some (.vString s)) ∧
    (∀ s, coerceString (.vString s) = some (.vString s)) ∧
    (∀ v s, asStringer v = some s → coerceString v = some (.vString s)) ∧
    coerceString (.vInt 123) = some (.vString "123") := by
  refine ⟨rfl, rfl, rfl, rfl, coerceString_shape, fun s => rfl, fun v s h => ?_,
    by decide⟩
  cases v with
  | vPtr w =>
    cases w <;> first
      | exact Option.noConfusion h
      | (rw [← Option.some.inj h]; rfl)
  | _ =>
    first
      | exact Option.noConfusion h
      | (rw [← Option.some.inj h]; rfl)

/-- Witness for C8: the theorem applied at a `Stringer`-capable input. -/
theorem c8_string_id_never_fail_witness :
    coerceString (.vStringer "rendered") = some (.vString "rendered") :=
  c8_string_id_never_fail.2.2.2.2.2.2.1 (.vStringer "rendered") "rendered" (by decide)

/-- Claim C9: for each of the Int, Float, String, Boolean and ID units, for
every input whose `ParseValue` is not "no value", applying `Serialize` to
the produced value returns that value unchanged. -/
theorem c9_serialize_parsevalue_stable (x y : GoValue) :
    (Scalars.Int.ParseValue x = some y → Scalars.Int.Serialize y = some y) ∧
    (Scalars.Float.ParseValue x = some y → Scalars.Float.Serialize y = some y) ∧
    (Scalars.String.ParseValue x = some y → Scalars.String.Serialize y = some y) ∧
    (Scalars.Boolean.ParseValue x = some y → Scalars.Boolean.Serialize y = some y) ∧
    (Scalars.ID.ParseValue x = some y → Scalars.ID.Serialize y = some y) := by
  exact ⟨fun h => coerceInt_idem h, fun h => coerceFloat_idem h,
    fun h => coerceString_idem h, fun h => coerceBool_idem h,
    fun h => coerceString_idem h⟩

/-- Witness for C9: the theorem applied at concrete inputs of each unit. -/
theorem c9_serialize_parsevalue_stable_witness :
    Scalars.Int.Serialize (GoValue.vInt 5) = some (GoValue.vInt 5) ∧
    Scalars.Float.Serialize (GoValue.vFloat64 2) = some (GoValue.vFloat64 2) ∧
    Scalars.String.Serialize (GoValue.vString "abc") = some (GoValue.vString "abc") ∧
    Scalars.Boolean.Serialize (GoValue.vBool true) = some (GoValue.vBool true) ∧
    Scalars.ID.Serialize (GoValue.vString "id1") = some (GoValue.vString "id1") :=
  ⟨(c9_serialize_parsevalue_stable (GoValue.vInt 5) (GoValue.vInt 5)).1 (by decide),
   (c9_serialize_parsevalue_stable (GoValue.vFloat64 2)
     (GoValue.vFloat64 2)).2.1 (by decide),
   (c9_serialize_parsevalue_stable (GoValue.vString "abc")
     (GoValue.vString "abc")).2.2.1 (by decide),
   (c9_serialize_parsevalue_stable (GoValue.vBool true)
     (GoValue.vBool true)).2.2.2.1 (by decide),
   (c9_serialize_parsevalue_stable (GoValue.vString "id1")
     (GoValue.vString "id1")).2.2.2.2 (by decide)⟩
